import Mathlib

/-!
Verification of `scripts/tilestache-seed.py` (TileStache cache seeder).

The development shallowly embeds the script's coordinate sources
(`generateCoordinates`, `listCoordinates`, `tilesetCoordinates`) and its
seeding/retry/progress orchestration loop (`__main__`, lines 245-306) as pure
Lean functions, together with the small part of the ModestMaps `Coordinate`
class the script calls (`zoomTo`, `container`, `left`, `right`, `up`, `down`).

Python machine details mapped as follows: Python (2.x) ints are `ℤ`/`ℕ`
(arbitrary precision in Python, so no modular wrap), fractional projected
coordinates are `ℚ` (ModestMaps uses floats; only ordering and floors matter
here), fallible parsing is `Option`, the mutable loop state of `__main__`
(error-list file contents, last progress-file snapshot, abort by uncaught
exception) is threaded explicitly through `SeedState`/`SeedOutcome`.
-/

/-- ModestMaps integer tile coordinate, as yielded by the coordinate sources:
`Coordinate(row, column, zoom)`. -/
structure Coordinate where
  row : ℤ
  column : ℤ
  zoom : ℤ
deriving DecidableEq, Repr

/-- ModestMaps coordinate with fractional row/column, as returned by
`projection.locationCoordinate` and `zoomTo` before `container()` is taken. -/
structure FracCoordinate where
  row : ℚ
  column : ℚ
  zoom : ℤ
deriving DecidableEq, Repr

/-- ModestMaps `Coordinate.zoomTo(destination)`: scales row and column by
`2 ** (destination - zoom)`. -/
def FracCoordinate.zoomTo (c : FracCoordinate) (destination : ℤ) : FracCoordinate :=
  ⟨c.row * (2 : ℚ) ^ (destination - c.zoom),
   c.column * (2 : ℚ) ^ (destination - c.zoom),
   destination⟩

/-- ModestMaps `Coordinate.container()`: floor of row and column. -/
def FracCoordinate.container (c : FracCoordinate) : Coordinate :=
  ⟨⌊c.row⌋, ⌊c.column⌋, c.zoom⟩

/-- ModestMaps `Coordinate.left(distance)`. -/
def Coordinate.left (c : Coordinate) (distance : ℤ) : Coordinate :=
  ⟨c.row, c.column - distance, c.zoom⟩

/-- ModestMaps `Coordinate.right(distance)`. -/
def Coordinate.right (c : Coordinate) (distance : ℤ) : Coordinate :=
  ⟨c.row, c.column + distance, c.zoom⟩

/-- ModestMaps `Coordinate.up(distance)`. -/
def Coordinate.up (c : Coordinate) (distance : ℤ) : Coordinate :=
  ⟨c.row - distance, c.column, c.zoom⟩

/-- ModestMaps `Coordinate.down(distance)`. -/
def Coordinate.down (c : Coordinate) (distance : ℤ) : Coordinate :=
  ⟨c.row + distance, c.column, c.zoom⟩

/-- Source line `ul_ = ul.zoomTo(zoom).container().left(padding).up(padding)`
(tilestache-seed.py lines 102 and 115). -/
def ulCorner (ul : FracCoordinate) (zoom padding : ℤ) : Coordinate :=
  (((ul.zoomTo zoom).container).left padding).up padding

/-- Source line `lr_ = lr.zoomTo(zoom).container().right(padding).down(padding)`
(tilestache-seed.py lines 103 and 116). -/
def lrCorner (lr : FracCoordinate) (zoom padding : ℤ) : Coordinate :=
  (((lr.zoomTo zoom).container).right padding).down padding

/-- Source line `rows = lr_.row + 1 - ul_.row` (tilestache-seed.py line 105). -/
def floodRowSpan (ul lr : FracCoordinate) (zoom padding : ℤ) : ℤ :=
  (lrCorner lr zoom padding).row + 1 - (ulCorner ul zoom padding).row

/-- Source line `cols = lr_.column + 1 - ul_.column` (tilestache-seed.py line 106). -/
def floodColSpan (ul lr : FracCoordinate) (zoom padding : ℤ) : ℤ :=
  (lrCorner lr zoom padding).column + 1 - (ulCorner ul zoom padding).column

/-- The precomputed total of `generateCoordinates` (tilestache-seed.py lines
99-108): `count = sum over zooms of int(rows * cols)`. -/
def gcCount (ul lr : FracCoordinate) (zooms : List ℤ) (padding : ℤ) : ℤ :=
  (zooms.map fun zoom => floodRowSpan ul lr zoom padding * floodColSpan ul lr zoom padding).sum

/-- Python `range(a, b)` over integers. -/
def intRange (a b : ℤ) : List ℤ :=
  (List.range (b - a).toNat).map fun i : ℕ => a + (i : ℤ)

/-- The nested row/column loops of `generateCoordinates` for one zoom level
(tilestache-seed.py lines 114-120): rows outer ascending, columns inner
ascending, each pair yielding `Coordinate(row, column, zoom)`. -/
def gcZoomCoords (ul lr : FracCoordinate) (padding zoom : ℤ) : List Coordinate :=
  (intRange (ulCorner ul zoom padding).row ((lrCorner lr zoom padding).row + 1)).flatMap fun row =>
    (intRange (ulCorner ul zoom padding).column ((lrCorner lr zoom padding).column + 1)).map
      fun column => ⟨row, column, zoom⟩

/-- One item of a coordinate stream: `(offset, count, coordinate)`. -/
abbrev SeedItem := ℕ × ℤ × Coordinate

/-- Function `generateCoordinates(ul, lr, zooms, padding)` (tilestache-seed.py lines
93-124), materialized as the list of yielded `(offset, count, coordinate)`
tuples: `count` is the total computed in the first pass (lines 99-108), the
offsets then number the yields of the second pass starting at 0. -/
def generateCoordinates (ul lr : FracCoordinate) (zooms : List ℤ) (padding : ℤ) :
    List SeedItem :=
  ((zooms.flatMap (gcZoomCoords ul lr padding)).enum).map fun p =>
    (p.1, gcCount ul lr zooms padding, p.2)

/-- Python `str.split(sep)` for a one-character separator, over the character
list of the string (always returns number-of-separators + 1 pieces). -/
def pySplit (sep : Char) : List Char → List (List Char)
  | [] => [[]]
  | c :: cs =>
    if c = sep then [] :: pySplit sep cs
    else
      match pySplit sep cs with
      | [] => [[c]]
      | part :: parts => (c :: part) :: parts

/-- Python `str.strip()`: drop whitespace from both ends. -/
def pyStrip (l : List Char) : List Char :=
  ((l.dropWhile Char.isWhitespace).reverse.dropWhile Char.isWhitespace).reverse

/-- Decimal value of a digit string; `none` if any character is not a digit. -/
def digitsVal (acc : ℕ) : List Char → Option ℕ
  | [] => some acc
  | c :: cs => if c.isDigit then digitsVal (acc * 10 + (c.toNat - '0'.toNat)) cs else none

/-- Python `int(s)` on a field: optional surrounding whitespace and sign,
then at least one decimal digit, else a `ValueError` (`none`). -/
def pyInt (l : List Char) : Option ℤ :=
  match pyStrip l with
  | '-' :: ds => if ds = [] then none else (digitsVal 0 ds).map fun n => -(n : ℤ)
  | '+' :: ds => if ds = [] then none else (digitsVal 0 ds).map fun n => (n : ℤ)
  | ds => if ds = [] then none else (digitsVal 0 ds).map fun n => (n : ℤ)

/-- One line of a tile-list file, split as `line.strip().split('/')` into the
three fields `(zoom, column, row)` and parsed with `int` (tilestache-seed.py
lines 131-132); `none` models the `ValueError` that aborts the job. -/
def parseTriple (line : String) : Option (ℤ × ℤ × ℤ) :=
  match pySplit '/' (pyStrip line.data) with
  | [zs, cs, rs] =>
    match pyInt rs, pyInt cs, pyInt zs with
    | some r, some c, some z => some (z, c, r)
    | _, _, _ => none
  | _ => none

/-- The coordinate built from one tile-list line:
`Coordinate(int(row), int(column), int(zoom))` (tilestache-seed.py line 133). -/
def parseLine (line : String) : Option Coordinate :=
  (parseTriple line).map fun t => ⟨t.2.2, t.2.1, t.1⟩

/-- Function `listCoordinates(filename)` (tilestache-seed.py lines 126-138) applied to
the file's lines: materialize and parse every line, let `count = len(coords)`,
then yield `(offset, count, coord)` by enumeration. -/
def listCoordinates (lines : List String) : Option (List SeedItem) :=
  (lines.mapM parseLine).map fun coords =>
    coords.enum.map fun p => (p.1, (coords.length : ℤ), p.2)

/-- Function `tilesetCoordinates(filename)` (tilestache-seed.py lines 140-149) applied
to the coordinate list reported by `MBTiles.list_tiles` (an external
collaborator): `count = len(coords)`, then `(offset, count, coord)` in the
container's order. -/
def tilesetCoordinates (coords : List Coordinate) : List SeedItem :=
  coords.enum.map fun p => (p.1, (coords.length : ℤ), p.2)

/-- Source line `attempts = options.enable_retries and 3 or 1` (tilestache-seed.py
line 265). -/
def attemptBudget (enableRetries : Bool) : ℕ :=
  if enableRetries then 3 else 1

/-- Terminal outcome of the per-item `while not rendered` loop, carrying
`made`, the number of `getTile` calls performed for this item. -/
inductive AttemptResult where
  | fetched (contentLength : ℕ) (made : ℕ)
  | failedLogged (made : ℕ)
  | aborted (made : ℕ)
deriving DecidableEq, Repr

/-- Number of backend fetch attempts the loop made. -/
def AttemptResult.made : AttemptResult → ℕ
  | .fetched _ m => m
  | .failedLogged m => m
  | .aborted m => m

/-- Whether the loop ended with a successful fetch. -/
def AttemptResult.isFetched : AttemptResult → Bool
  | .fetched _ _ => true
  | _ => false

/-- The `while not rendered` loop of tilestache-seed.py lines 265-298, for one
item. `fetch k` is the outcome of the `getTile` call number `k` (0-based):
`some contentLength` on success, `none` when it raises. Each iteration makes
one fetch; on failure `attempts -= 1`; at `attempts == 0` the loop breaks to
the error list when one is configured (`haveSink`) and re-raises otherwise.
The fuel-0 case never arises in the script, whose budget is 1 or 3; Python
would loop forever there, the model returns the propagated failure. -/
def attemptLoop (fetch : ℕ → Option ℕ) (haveSink : Bool) : ℕ → ℕ → AttemptResult
  | 0, made => .aborted made
  | attempts + 1, made =>
    match fetch made with
    | some content => .fetched content (made + 1)
    | none =>
      if attempts = 0 then
        (if haveSink then .failedLogged (made + 1) else .aborted (made + 1))
      else attemptLoop fetch haveSink attempts (made + 1)

/-- The configuration of the seeding loop that the modelled fragment reads:
retry flag, whether `--error-list` and `--progress-file` are configured, the
layer name and tile extension used for path formatting. -/
structure SeedOpts where
  enableRetries : Bool
  errorList : Bool
  progressFile : Bool
  layer : String
  extension : String
deriving DecidableEq, Repr

/-- The progress dictionary as written to the progress file: `tile`, 1-based
`offset`, `total`, and `size` (present only after a successful fetch). -/
structure ProgressRec where
  tile : String
  offset : ℕ
  total : ℤ
  size : Option String
deriving DecidableEq, Repr

/-- Observable state threaded through the seeding loop: how many items the
loop has started processing, the lines appended to the `--error-list` file,
and the last snapshot written to the `--progress-file` (which is rewritten
whole on each write). -/
structure SeedState where
  processed : ℕ
  errorLines : List String
  lastProgress : Option ProgressRec
deriving DecidableEq, Repr

/-- Result of the seeding loop: ran to completion, or aborted by an uncaught
re-raise from the retry loop. -/
inductive SeedOutcome where
  | completed (s : SeedState)
  | aborted (s : SeedState)
deriving DecidableEq, Repr

/-- Number of items the loop started processing, regardless of how it ended. -/
def SeedOutcome.processedCount : SeedOutcome → ℕ
  | .completed s => s.processed
  | .aborted s => s.processed

/-- Source line `path = '%s/%d/%d/%d.%s' % (layer.name(), coord.zoom, coord.column,
coord.row, extension)` (tilestache-seed.py line 255). -/
def tilePath (layer : String) (coord : Coordinate) (ext : String) : String :=
  layer ++ "/" ++ toString coord.zoom ++ "/" ++ toString coord.column ++ "/" ++
    toString coord.row ++ "." ++ ext

/-- Source line `progress['size'] = '%dKB' % (len(content) / 1024)` (tilestache-seed.py
line 298; Python 2 floor division). -/
def sizeStr (contentLength : ℕ) : String :=
  toString (contentLength / 1024) ++ "KB"

/-- Source line `fp.write('%(zoom)d/%(column)d/%(row)d\n' % coord.__dict__)`
(tilestache-seed.py line 289). -/
def errLine (coord : Coordinate) : String :=
  toString coord.zoom ++ "/" ++ toString coord.column ++ "/" ++ toString coord.row ++ "\n"

/-- The `for (offset, count, coord) in coordinates` loop of tilestache-seed.py
lines 254-306. Per item: run the retry loop; on success write the progress
snapshot with a `size` entry; on exhaustion with an error list configured,
append one line to it and still write the (size-less) snapshot; on exhaustion
without one, the re-raise aborts the whole loop, skipping the progress write
and the remaining items. The snapshot is only written when `--progress-file`
is configured, and each write replaces the previous snapshot. -/
def runItems (opts : SeedOpts) (fetch : Coordinate → ℕ → Option ℕ) :
    List SeedItem → SeedState → SeedOutcome
  | [], s => .completed s
  | (offset, count, coord) :: rest, s =>
    let path := tilePath opts.layer coord opts.extension
    match attemptLoop (fetch coord) opts.errorList (attemptBudget opts.enableRetries) 0 with
    | .aborted _ => .aborted { s with processed := s.processed + 1 }
    | .failedLogged _ =>
      runItems opts fetch rest
        { processed := s.processed + 1,
          errorLines := s.errorLines ++ [errLine coord],
          lastProgress :=
            if opts.progressFile then some ⟨path, offset + 1, count, none⟩ else s.lastProgress }
    | .fetched content _ =>
      runItems opts fetch rest
        { processed := s.processed + 1,
          errorLines := s.errorLines,
          lastProgress :=
            if opts.progressFile then some ⟨path, offset + 1, count, some (sizeStr content)⟩
            else s.lastProgress }

/-- The seeding loop applied to a coordinate stream, including the
truncation `coordinates = list(coordinates)[:10]` of tilestache-seed.py
line 252, starting from the initial (empty) observable state. -/
def seedMain (opts : SeedOpts) (fetch : Coordinate → ℕ → Option ℕ)
    (stream : List SeedItem) : SeedOutcome :=
  runItems opts fetch (stream.take 10) ⟨0, [], none⟩

/-- Result of the whole job after configuration checks. -/
inductive JobResult where
  | configError (msg : String)
  | parseFailure
  | ran (outcome : SeedOutcome)
deriving DecidableEq, Repr

/-- The tail of `__main__` (tilestache-seed.py lines 235-306): the negative
padding check (line 235, raising `KnownUnknown`, which `parser.error` turns
into an abort) happens before any coordinate source is constructed; then the
source is selected — `--tile-list` first, else the tileset input, else the
bounding-box flood fill (lines 245-250) — and the seeding loop runs on it. -/
def seedJob (opts : SeedOpts) (fetch : Coordinate → ℕ → Option ℕ) (padding : ℤ)
    (ul lr : FracCoordinate) (zooms : List ℤ)
    (tileList : Option (List String)) (tilesetInput : Option (List Coordinate)) : JobResult :=
  if padding < 0 then .configError "A negative padding will not work."
  else
    match tileList with
    | some lines =>
      match listCoordinates lines with
      | none => .parseFailure
      | some items => .ran (seedMain opts fetch items)
    | none =>
      match tilesetInput with
      | some coords => .ran (seedMain opts fetch (tilesetCoordinates coords))
      | none => .ran (seedMain opts fetch (generateCoordinates ul lr zooms padding))

/-- Bounding-box normalization (tilestache-seed.py lines 219-221), returning
`(south, west, north, east)`. -/
def normalizedBbox (lat1 lon1 lat2 lon2 : ℚ) : ℚ × ℚ × ℚ × ℚ :=
  (min lat1 lat2, min lon1 lon2, max lat1 lat2, max lon1 lon2)

/-- Row-major closed form of a tile grid: item `k` of the enumeration of a
`numRows × numCols` grid starting at `(r0, c0)` sits at row `r0 + k / numCols`
and column `c0 + k % numCols`. Used to state the enumeration order of the
flood-fill source. -/
def rowMajor (r0 c0 zoom : ℤ) (numRows numCols : ℕ) : List Coordinate :=
  (List.range (numRows * numCols)).map fun k : ℕ =>
    ⟨r0 + ((k / numCols : ℕ) : ℤ), c0 + ((k % numCols : ℕ) : ℤ), zoom⟩

/-! ## Helper lemmas: flood-fill coordinate source -/

theorem sum_map_const {α : Type} (l : List α) (c : ℕ) : (l.map fun _ => c).sum = l.length * c := by
  induction l with
  | nil => simp
  | cons a t ih => simp [ih]; ring

theorem grid_rowMajor (r0 c0 z : ℤ) (R C : ℕ) :
    ((List.range R).map fun i : ℕ => r0 + (i : ℤ)).flatMap
      (fun row => ((List.range C).map fun j : ℕ => c0 + (j : ℤ)).map fun column =>
        (⟨row, column, z⟩ : Coordinate))
    = rowMajor r0 c0 z R C := by
  induction R with
  | zero => simp [rowMajor]
  | succ R ih =>
    rw [List.range_succ, List.map_append, List.flatMap_append, ih]
    simp only [rowMajor]
    rw [Nat.succ_mul, List.range_add, List.map_append]
    congr 1
    simp only [List.map_cons, List.map_nil, List.flatMap_cons, List.flatMap_nil,
      List.append_nil, List.map_map]
    rcases Nat.eq_zero_or_pos C with hC | hC
    · subst hC; simp
    · apply List.map_congr_left
      intro j hj
      have hjC : j < C := List.mem_range.mp hj
      have hdiv : (R * C + j) / C = R := by
        rw [Nat.mul_comm, Nat.mul_add_div hC, Nat.div_eq_of_lt hjC, Nat.add_zero]
      have hmod : (R * C + j) % C = j := by
        rw [Nat.mul_comm, Nat.mul_add_mod]
        exact Nat.mod_eq_of_lt hjC
      simp [Function.comp, hdiv, hmod]

theorem gcZoomCoords_eq_rowMajor (ul lr : FracCoordinate) (p z : ℤ) :
    gcZoomCoords ul lr p z =
      rowMajor (ulCorner ul z p).row (ulCorner ul z p).column z
        (floodRowSpan ul lr z p).toNat (floodColSpan ul lr z p).toNat := by
  rw [← grid_rowMajor]
  simp only [gcZoomCoords, intRange, floodRowSpan, floodColSpan]

theorem corner_row_le (ul lr : FracCoordinate) (z p : ℤ)
    (hz : ul.zoom = lr.zoom) (hrow : ul.row ≤ lr.row) (hp : 0 ≤ p) :
    (ulCorner ul z p).row ≤ (lrCorner lr z p).row := by
  have hq : (0 : ℚ) < (2 : ℚ) ^ (z - lr.zoom) := zpow_pos (by norm_num) _
  have hm : ul.row * (2 : ℚ) ^ (z - lr.zoom) ≤ lr.row * (2 : ℚ) ^ (z - lr.zoom) :=
    mul_le_mul_of_nonneg_right hrow hq.le
  have hf := Int.floor_le_floor hm
  simp only [ulCorner, lrCorner, Coordinate.left, Coordinate.up, Coordinate.right,
    Coordinate.down, FracCoordinate.container, FracCoordinate.zoomTo, hz]
  omega

theorem corner_col_le (ul lr : FracCoordinate) (z p : ℤ)
    (hz : ul.zoom = lr.zoom) (hcol : ul.column ≤ lr.column) (hp : 0 ≤ p) :
    (ulCorner ul z p).column ≤ (lrCorner lr z p).column := by
  have hq : (0 : ℚ) < (2 : ℚ) ^ (z - lr.zoom) := zpow_pos (by norm_num) _
  have hm : ul.column * (2 : ℚ) ^ (z - lr.zoom) ≤ lr.column * (2 : ℚ) ^ (z - lr.zoom) :=
    mul_le_mul_of_nonneg_right hcol hq.le
  have hf := Int.floor_le_floor hm
  simp only [ulCorner, lrCorner, Coordinate.left, Coordinate.up, Coordinate.right,
    Coordinate.down, FracCoordinate.container, FracCoordinate.zoomTo, hz]
  omega

theorem floodRowSpan_pos (ul lr : FracCoordinate) (z p : ℤ)
    (hz : ul.zoom = lr.zoom) (hrow : ul.row ≤ lr.row) (hp : 0 ≤ p) :
    0 < floodRowSpan ul lr z p := by
  have := corner_row_le ul lr z p hz hrow hp
  unfold floodRowSpan
  omega

theorem floodColSpan_pos (ul lr : FracCoordinate) (z p : ℤ)
    (hz : ul.zoom = lr.zoom) (hcol : ul.column ≤ lr.column) (hp : 0 ≤ p) :
    0 < floodColSpan ul lr z p := by
  have := corner_col_le ul lr z p hz hcol hp
  unfold floodColSpan
  omega

theorem gcZoomCoords_length_int (ul lr : FracCoordinate) (z p : ℤ)
    (hz : ul.zoom = lr.zoom) (hrow : ul.row ≤ lr.row) (hcol : ul.column ≤ lr.column)
    (hp : 0 ≤ p) :
    ((gcZoomCoords ul lr p z).length : ℤ) = floodRowSpan ul lr z p * floodColSpan ul lr z p := by
  have hR := floodRowSpan_pos ul lr z p hz hrow hp
  have hC := floodColSpan_pos ul lr z p hz hcol hp
  rw [gcZoomCoords_eq_rowMajor]
  simp only [rowMajor, List.length_map, List.length_range]
  rw [Nat.cast_mul, Int.toNat_of_nonneg hR.le, Int.toNat_of_nonneg hC.le]

theorem generateCoordinates_length_int (ul lr : FracCoordinate) (zooms : List ℤ) (p : ℤ)
    (hz : ul.zoom = lr.zoom) (hrow : ul.row ≤ lr.row) (hcol : ul.column ≤ lr.column)
    (hp : 0 ≤ p) :
    ((generateCoordinates ul lr zooms p).length : ℤ) = gcCount ul lr zooms p := by
  simp only [generateCoordinates, List.length_map, List.enum_length]
  rw [List.length_flatMap, Nat.cast_list_sum, List.map_map]
  unfold gcCount
  apply congrArg List.sum
  apply List.map_congr_left
  intro z hzm
  simp only [Function.comp_apply]
  exact gcZoomCoords_length_int ul lr z p hz hrow hcol hp

theorem generateCoordinates_offsets (ul lr : FracCoordinate) (zooms : List ℤ) (p : ℤ) :
    (generateCoordinates ul lr zooms p).map Prod.fst =
      List.range (generateCoordinates ul lr zooms p).length := by
  unfold generateCoordinates
  rw [List.map_map,
    show (Prod.fst ∘ fun q : ℕ × Coordinate => (q.1, gcCount ul lr zooms p, q.2)) = Prod.fst
      from rfl,
    List.enum_map_fst, List.length_map, List.enum_length]

theorem generateCoordinates_total (ul lr : FracCoordinate) (zooms : List ℤ) (p : ℤ)
    (x : SeedItem) (hx : x ∈ generateCoordinates ul lr zooms p) :
    x.2.1 = gcCount ul lr zooms p := by
  unfold generateCoordinates at hx
  simp only [List.mem_map] at hx
  obtain ⟨q, _, rfl⟩ := hx
  rfl

theorem generateCoordinates_coords (ul lr : FracCoordinate) (zooms : List ℤ) (p : ℤ) :
    (generateCoordinates ul lr zooms p).map (fun x => x.2.2) =
      zooms.flatMap fun z =>
        rowMajor (ulCorner ul z p).row (ulCorner ul z p).column z
          (floodRowSpan ul lr z p).toNat (floodColSpan ul lr z p).toNat := by
  unfold generateCoordinates
  rw [List.map_map,
    show ((fun x : SeedItem => x.2.2) ∘ fun q : ℕ × Coordinate =>
        (q.1, gcCount ul lr zooms p, q.2)) = Prod.snd from rfl,
    List.enum_map_snd]
  exact congrArg _ (funext fun z => gcZoomCoords_eq_rowMajor ul lr p z)

/-! ## Helper lemmas: tile-list parsing -/

theorem mapM_option_spec {α β : Type} (f : α → Option β) :
    ∀ (l : List α) (res : List β), l.mapM f = some res →
      res.length = l.length ∧
      ∀ (i : ℕ) (hl : i < l.length) (hr : i < res.length),
        f (l.get ⟨i, hl⟩) = some (res.get ⟨i, hr⟩) := by
  intro l
  induction l with
  | nil =>
    intro res h
    rw [← List.mapM'_eq_mapM] at h
    simp only [List.mapM'] at h
    cases h
    exact ⟨rfl, fun i hl => absurd hl (by simp)⟩
  | cons a t ih =>
    intro res h
    rw [← List.mapM'_eq_mapM] at h
    simp only [List.mapM'] at h
    simp only [Option.pure_def, Option.bind_eq_bind] at h
    cases hfa : f a with
    | none => rw [hfa] at h; simp only [Option.none_bind] at h; exact absurd h (by simp)
    | some b =>
      rw [hfa] at h
      simp only [Option.some_bind] at h
      cases hmt : List.mapM' f t with
      | none => rw [hmt] at h; simp only [Option.none_bind] at h; exact absurd h (by simp)
      | some bs =>
        rw [hmt] at h
        simp only [Option.some_bind, Option.some.injEq] at h
        subst h
        rw [List.mapM'_eq_mapM] at hmt
        obtain ⟨hlen, hidx⟩ := ih bs hmt
        refine ⟨by simp [hlen], ?_⟩
        intro i hl hr
        cases i with
        | zero => simpa using hfa
        | succ i =>
          simp only [List.get_cons_succ]
          exact hidx i (by simpa using hl) (by simpa using hr)

/-! ## Helper lemmas: the seeding loop -/

theorem attemptLoop_made_le (fetch : ℕ → Option ℕ) (sink : Bool) :
    ∀ (a k : ℕ), (attemptLoop fetch sink a k).made ≤ k + a := by
  intro a
  induction a with
  | zero => intro k; simp [attemptLoop, AttemptResult.made]
  | succ a ih =>
    intro k
    rw [attemptLoop]
    cases fetch k with
    | some content => simp only [AttemptResult.made]; omega
    | none =>
      by_cases ha : a = 0
      · subst ha
        cases sink <;> simp [AttemptResult.made]
      · simp only [ha, ite_false]
        have := ih (k + 1)
        omega

theorem attemptLoop_all_fail (fetch : ℕ → Option ℕ) (sink : Bool)
    (hfail : ∀ j, fetch j = none) :
    ∀ (a k : ℕ), 1 ≤ a →
      attemptLoop fetch sink a k =
        (if sink then .failedLogged (k + a) else .aborted (k + a)) := by
  intro a
  induction a with
  | zero => intro k h; exact absurd h (by omega)
  | succ a ih =>
    intro k _
    rw [attemptLoop, hfail k]
    by_cases ha : a = 0
    · subst ha; rfl
    · simp only [ha, ite_false]
      rw [ih (k + 1) (by omega)]
      have : k + 1 + a = k + (a + 1) := by omega
      rw [this]

theorem attemptLoop_not_fetched_made (fetch : ℕ → Option ℕ) (sink : Bool) :
    ∀ (a k : ℕ), (attemptLoop fetch sink a k).isFetched = false →
      (attemptLoop fetch sink a k).made = k + a := by
  intro a
  induction a with
  | zero => intro k _; simp [attemptLoop, AttemptResult.made]
  | succ a ih =>
    intro k hns
    cases hk : fetch k with
    | some content =>
      rw [attemptLoop, hk] at hns
      simp [AttemptResult.isFetched] at hns
    | none =>
      rw [attemptLoop, hk] at hns
      rw [attemptLoop, hk]
      by_cases ha : a = 0
      · subst ha
        cases sink <;> simp [AttemptResult.made]
      · simp only [ha, ite_false] at hns ⊢
        have := ih (k + 1) hns
        omega

theorem runItems_cons_fetched (opts : SeedOpts) (fetch : Coordinate → ℕ → Option ℕ)
    (o : ℕ) (c : ℤ) (coord : Coordinate) (rest : List SeedItem) (s : SeedState)
    (len m : ℕ)
    (h : attemptLoop (fetch coord) opts.errorList (attemptBudget opts.enableRetries) 0 =
      .fetched len m) :
    runItems opts fetch ((o, c, coord) :: rest) s =
      runItems opts fetch rest
        { processed := s.processed + 1,
          errorLines := s.errorLines,
          lastProgress :=
            if opts.progressFile then
              some ⟨tilePath opts.layer coord opts.extension, o + 1, c, some (sizeStr len)⟩
            else s.lastProgress } := by
  rw [runItems, h]

theorem runItems_cons_failedLogged (opts : SeedOpts) (fetch : Coordinate → ℕ → Option ℕ)
    (o : ℕ) (c : ℤ) (coord : Coordinate) (rest : List SeedItem) (s : SeedState) (m : ℕ)
    (h : attemptLoop (fetch coord) opts.errorList (attemptBudget opts.enableRetries) 0 =
      .failedLogged m) :
    runItems opts fetch ((o, c, coord) :: rest) s =
      runItems opts fetch rest
        { processed := s.processed + 1,
          errorLines := s.errorLines ++ [errLine coord],
          lastProgress :=
            if opts.progressFile then
              some ⟨tilePath opts.layer coord opts.extension, o + 1, c, none⟩
            else s.lastProgress } := by
  rw [runItems, h]

theorem runItems_cons_aborted (opts : SeedOpts) (fetch : Coordinate → ℕ → Option ℕ)
    (o : ℕ) (c : ℤ) (coord : Coordinate) (rest : List SeedItem) (s : SeedState) (m : ℕ)
    (h : attemptLoop (fetch coord) opts.errorList (attemptBudget opts.enableRetries) 0 =
      .aborted m) :
    runItems opts fetch ((o, c, coord) :: rest) s =
      .aborted { s with processed := s.processed + 1 } := by
  rw [runItems, h]

theorem runItems_processed_le (opts : SeedOpts) (fetch : Coordinate → ℕ → Option ℕ) :
    ∀ (items : List SeedItem) (s : SeedState),
      (runItems opts fetch items s).processedCount ≤ s.processed + items.length := by
  intro items
  induction items with
  | nil => intro s; simp [runItems, SeedOutcome.processedCount]
  | cons it rest ih =>
    intro s
    obtain ⟨o, c, coord⟩ := it
    cases hA : attemptLoop (fetch coord) opts.errorList (attemptBudget opts.enableRetries) 0 with
    | fetched len m =>
      rw [runItems_cons_fetched opts fetch o c coord rest s len m hA]
      refine le_trans (ih _) ?_
      show s.processed + 1 + rest.length ≤ s.processed + ((o, c, coord) :: rest).length
      simp only [List.length_cons]
      omega
    | failedLogged m =>
      rw [runItems_cons_failedLogged opts fetch o c coord rest s m hA]
      refine le_trans (ih _) ?_
      show s.processed + 1 + rest.length ≤ s.processed + ((o, c, coord) :: rest).length
      simp only [List.length_cons]
      omega
    | aborted m =>
      rw [runItems_cons_aborted opts fetch o c coord rest s m hA]
      simp only [SeedOutcome.processedCount, List.length_cons]
      omega

/-! ## Claims -/

/-- C1: the claim states the seeding loop attempts every item the source
yields, with no truncation. The code instead truncates every stream to its
first 10 items (`coordinates = list(coordinates)[:10]`, line 252): on a
12-coordinate tileset stream whose fetches all succeed, the loop processes
exactly 10 items even though every item carries `total = 12`. -/
theorem spec_C1_truncated_stream :
    (tilesetCoordinates ((List.range 12).map fun i : ℕ => (⟨(i : ℤ), 0, 5⟩ : Coordinate))).length
      = 12 ∧
    (∀ x ∈ tilesetCoordinates ((List.range 12).map fun i : ℕ => (⟨(i : ℤ), 0, 5⟩ : Coordinate)),
      x.2.1 = 12) ∧
    seedMain ⟨false, false, false, "osm", "png"⟩ (fun _ _ => some 1024)
      (tilesetCoordinates ((List.range 12).map fun i : ℕ => (⟨(i : ℤ), 0, 5⟩ : Coordinate))) =
      .completed ⟨10, [], none⟩ :=
  ⟨by decide, by decide, by decide⟩

/-- C2: for corner coordinates (`ul` the northwest, `lr` the southeast corner,
projected at a common zoom, as the normalized bounding box guarantees) and
padding ≥ 0, the flood-fill total equals the sum over the zoom levels of
rows × columns of the padded per-zoom spans, it is a pure function of the
inputs carried unchanged in every yielded item, the generator yields exactly
`total` items, and the yielded coordinates are, per zoom level in caller
order, exactly the row-major enumeration (rows outer ascending, columns inner
ascending) of the padded grid. -/
theorem spec_C2_floodfill_total (ul lr : FracCoordinate) (zooms : List ℤ) (padding : ℤ)
    (hz : ul.zoom = lr.zoom) (hrow : ul.row ≤ lr.row) (hcol : ul.column ≤ lr.column)
    (hpad : 0 ≤ padding) :
    ((generateCoordinates ul lr zooms padding).length : ℤ) = gcCount ul lr zooms padding ∧
    gcCount ul lr zooms padding =
      (zooms.map fun zoom =>
        floodRowSpan ul lr zoom padding * floodColSpan ul lr zoom padding).sum ∧
    (∀ x ∈ generateCoordinates ul lr zooms padding, x.2.1 = gcCount ul lr zooms padding) ∧
    (generateCoordinates ul lr zooms padding).map (fun x => x.2.2) =
      zooms.flatMap fun zoom =>
        rowMajor (ulCorner ul zoom padding).row (ulCorner ul zoom padding).column zoom
          (floodRowSpan ul lr zoom padding).toNat (floodColSpan ul lr zoom padding).toNat :=
  ⟨generateCoordinates_length_int ul lr zooms padding hz hrow hcol hpad, rfl,
    generateCoordinates_total ul lr zooms padding,
    generateCoordinates_coords ul lr zooms padding⟩

/-- Witness for C2 at a concrete northwest/southeast corner pair. -/
theorem spec_C2_floodfill_total_witness :
    ((generateCoordinates ⟨0, 0, 0⟩ ⟨2, 1, 0⟩ [1] 0).length : ℤ) =
      gcCount ⟨0, 0, 0⟩ ⟨2, 1, 0⟩ [1] 0 :=
  (spec_C2_floodfill_total ⟨0, 0, 0⟩ ⟨2, 1, 0⟩ [1] 0 rfl (by decide) (by decide)
    (by decide)).1

/-- Helper: shape facts shared by the enumerate-a-materialized-list sources. -/
theorem tilesetCoordinates_spec (cs : List Coordinate) :
    (tilesetCoordinates cs).map Prod.fst = List.range cs.length ∧
    (tilesetCoordinates cs).length = cs.length ∧
    ∀ x ∈ tilesetCoordinates cs, x.2.1 = (cs.length : ℤ) := by
  refine ⟨?_, ?_, ?_⟩
  · unfold tilesetCoordinates
    rw [List.map_map,
      show (Prod.fst ∘ fun q : ℕ × Coordinate => (q.1, (cs.length : ℤ), q.2)) = Prod.fst
        from rfl,
      List.enum_map_fst]
  · simp [tilesetCoordinates]
  · intro x hx
    unfold tilesetCoordinates at hx
    simp only [List.mem_map] at hx
    obtain ⟨q, _, rfl⟩ := hx
    rfl

/-- C3: for every coordinate-source variant — bounding-box flood fill (between
northwest/southeast corners at a common zoom with padding ≥ 0), parsed tile
list, tileset enumeration — the offsets of the yielded items are exactly
`0, 1, …, total-1` with no gaps or repeats, and every yielded item carries the
same total, a value fully determined by the source's input. -/
theorem spec_C3_offsets_contiguous (ul lr : FracCoordinate) (zooms : List ℤ) (padding : ℤ)
    (lines : List String) (items : List SeedItem) (coords : List Coordinate)
    (hz : ul.zoom = lr.zoom) (hrow : ul.row ≤ lr.row) (hcol : ul.column ≤ lr.column)
    (hpad : 0 ≤ padding) (hlist : listCoordinates lines = some items) :
    ((generateCoordinates ul lr zooms padding).map Prod.fst =
        List.range (gcCount ul lr zooms padding).toNat ∧
      ∀ x ∈ generateCoordinates ul lr zooms padding, x.2.1 = gcCount ul lr zooms padding) ∧
    (items.map Prod.fst = List.range items.length ∧
      items.length = lines.length ∧
      ∀ x ∈ items, x.2.1 = (items.length : ℤ)) ∧
    ((tilesetCoordinates coords).map Prod.fst = List.range coords.length ∧
      ∀ x ∈ tilesetCoordinates coords, x.2.1 = (coords.length : ℤ)) := by
  refine ⟨⟨?_, generateCoordinates_total ul lr zooms padding⟩, ?_, ?_⟩
  · have hlen := generateCoordinates_length_int ul lr zooms padding hz hrow hcol hpad
    have h2 : (gcCount ul lr zooms padding).toNat =
        (generateCoordinates ul lr zooms padding).length := by omega
    rw [h2]
    exact generateCoordinates_offsets ul lr zooms padding
  · unfold listCoordinates at hlist
    obtain ⟨cs, hm, hitems⟩ := Option.map_eq_some'.mp hlist
    have hlen := (mapM_option_spec parseLine lines cs hm).1
    have hts : items = tilesetCoordinates cs := hitems.symm
    subst hts
    obtain ⟨hfst, hln, htot⟩ := tilesetCoordinates_spec cs
    refine ⟨by rw [hfst, hln], by rw [hln, hlen], ?_⟩
    intro x hx
    rw [hln]
    exact htot x hx
  · obtain ⟨hfst, _, htot⟩ := tilesetCoordinates_spec coords
    exact ⟨hfst, htot⟩

/-- Witness for C3 with all three sources concrete. -/
theorem spec_C3_offsets_contiguous_witness :
    ([(0, (1 : ℤ), (⟨1200, 600, 12⟩ : Coordinate))] : List SeedItem).map Prod.fst =
      List.range ([(0, (1 : ℤ), (⟨1200, 600, 12⟩ : Coordinate))] : List SeedItem).length :=
  ((spec_C3_offsets_contiguous ⟨0, 0, 0⟩ ⟨2, 1, 0⟩ [1] 0 ["12/600/1200"]
      [(0, 1, ⟨1200, 600, 12⟩)] [⟨0, 0, 0⟩] rfl (by decide) (by decide) (by decide)
      (by decide)).2.1).1

/-- C7: padding `p` shifts each padded corner outward by `p` tiles, so the
per-zoom row and column spans at padding `p` equal the spans at padding 0
plus `2p` — strictly larger for `p > 0`, equal at `p = 0` — and a negative
padding is rejected as a configuration error before any coordinate source is
constructed or enumerated. -/
theorem spec_C7_padding_monotone (ul lr : FracCoordinate) (zoom p : ℤ) (opts : SeedOpts)
    (fetch : Coordinate → ℕ → Option ℕ) (zooms : List ℤ)
    (tileList : Option (List String)) (tilesetInput : Option (List Coordinate)) :
    (floodRowSpan ul lr zoom p = floodRowSpan ul lr zoom 0 + 2 * p ∧
      floodColSpan ul lr zoom p = floodColSpan ul lr zoom 0 + 2 * p) ∧
    (0 < p →
      floodRowSpan ul lr zoom 0 < floodRowSpan ul lr zoom p ∧
      floodColSpan ul lr zoom 0 < floodColSpan ul lr zoom p) ∧
    (p < 0 →
      seedJob opts fetch p ul lr zooms tileList tilesetInput =
        .configError "A negative padding will not work.") := by
  have hrow : floodRowSpan ul lr zoom p = floodRowSpan ul lr zoom 0 + 2 * p := by
    simp only [floodRowSpan, lrCorner, ulCorner, Coordinate.down, Coordinate.up,
      Coordinate.right, Coordinate.left, FracCoordinate.container, FracCoordinate.zoomTo]
    ring
  have hcol : floodColSpan ul lr zoom p = floodColSpan ul lr zoom 0 + 2 * p := by
    simp only [floodColSpan, lrCorner, ulCorner, Coordinate.down, Coordinate.up,
      Coordinate.right, Coordinate.left, FracCoordinate.container, FracCoordinate.zoomTo]
    ring
  refine ⟨⟨hrow, hcol⟩, fun hp => ⟨by omega, by omega⟩, fun hneg => ?_⟩
  unfold seedJob
  rw [if_pos hneg]

/-- Witness for C7 at padding 1 (strict growth) and padding -1 (rejection). -/
theorem spec_C7_padding_monotone_witness :
    (floodRowSpan ⟨0, 0, 0⟩ ⟨2, 1, 0⟩ 1 0 < floodRowSpan ⟨0, 0, 0⟩ ⟨2, 1, 0⟩ 1 1) ∧
    seedJob ⟨false, false, false, "osm", "png"⟩ (fun _ _ => none) (-1) ⟨0, 0, 0⟩ ⟨2, 1, 0⟩
        [1] none none =
      .configError "A negative padding will not work." := by
  have h1 := spec_C7_padding_monotone ⟨0, 0, 0⟩ ⟨2, 1, 0⟩ 1 1
    ⟨false, false, false, "osm", "png"⟩ (fun _ _ => none) [1] none none
  have h2 := spec_C7_padding_monotone ⟨0, 0, 0⟩ ⟨2, 1, 0⟩ 1 (-1)
    ⟨false, false, false, "osm", "png"⟩ (fun _ _ => none) [1] none none
  exact ⟨(h1.2.1 (by decide)).1, h2.2.2 (by decide)⟩

/-- C8: the seeding bounding box is normalized from the four input numbers as
south = min of the latitudes, west = min of the longitudes, north = max of the
latitudes, east = max of the longitudes, hence south ≤ north and west ≤ east
regardless of the order the corners were given in. -/
theorem spec_C8_bbox_normalized (lat1 lon1 lat2 lon2 : ℚ) :
    normalizedBbox lat1 lon1 lat2 lon2 =
      (min lat1 lat2, min lon1 lon2, max lat1 lat2, max lon1 lon2) ∧
    (normalizedBbox lat1 lon1 lat2 lon2).1 ≤ (normalizedBbox lat1 lon1 lat2 lon2).2.2.1 ∧
    (normalizedBbox lat1 lon1 lat2 lon2).2.1 ≤ (normalizedBbox lat1 lon1 lat2 lon2).2.2.2 := by
  refine ⟨rfl, ?_, ?_⟩ <;> simp only [normalizedBbox] <;> exact min_le_max

/-- C10: the per-item retry loop makes at most budget-many fetch attempts
(budget 3 with retries enabled, 1 otherwise), makes exactly budget-many when
it never succeeds, and the orchestration loop enters the retry loop at most
once per item, so the number of items ever processed is bounded by the length
of the stream. -/
theorem spec_C10_retry_bounded (fetch : ℕ → Option ℕ) (sink : Bool) (a k : ℕ)
    (retries : Bool) (opts : SeedOpts) (fetchF : Coordinate → ℕ → Option ℕ)
    (items : List SeedItem) (s : SeedState) :
    (attemptLoop fetch sink a k).made ≤ k + a ∧
    (attemptLoop fetch sink (attemptBudget retries) k).made ≤
      k + (if retries then 3 else 1) ∧
    ((attemptLoop fetch sink a k).isFetched = false →
      (attemptLoop fetch sink a k).made = k + a) ∧
    (runItems opts fetchF items s).processedCount ≤ s.processed + items.length := by
  refine ⟨attemptLoop_made_le fetch sink a k, ?_, attemptLoop_not_fetched_made fetch sink a k,
    runItems_processed_le opts fetchF items s⟩
  have h := attemptLoop_made_le fetch sink (attemptBudget retries) k
  unfold attemptBudget at h
  exact h

/-- Witness for C10 on an always-failing fetch with the retry budget. -/
theorem spec_C10_retry_bounded_witness :
    (attemptLoop (fun _ => none) true 3 0).isFetched = false ∧
    (attemptLoop (fun _ => none) true 3 0).made = 0 + 3 ∧
    (attemptLoop (fun _ => none) true 3 0).made ≤ 0 + 3 := by
  have h := spec_C10_retry_bounded (fun _ => none) true 3 0 true
    ⟨false, false, false, "osm", "png"⟩ (fun _ _ => none) [] ⟨0, [], none⟩
  exact ⟨by decide, h.2.2.1 (by decide), h.1⟩

/-- Helper: one failing iteration of the retry loop with attempts remaining. -/
theorem attemptLoop_succ_fail (fetch : ℕ → Option ℕ) (sink : Bool) (a k : ℕ)
    (h : fetch k = none) (ha : a ≠ 0) :
    attemptLoop fetch sink (a + 1) k = attemptLoop fetch sink a (k + 1) := by
  rw [attemptLoop, h]
  simp [ha]

/-- Helper: a successful iteration of the retry loop. -/
theorem attemptLoop_succ_ok (fetch : ℕ → Option ℕ) (sink : Bool) (a k len : ℕ)
    (h : fetch k = some len) :
    attemptLoop fetch sink (a + 1) k = .fetched len (k + 1) := by
  rw [attemptLoop, h]

/-- C4: against a backend that always fails, the retry loop makes exactly 1
fetch attempt when retries are disabled and exactly 3 when enabled, after
which the item is routed to the error sink (`failedLogged`) when one is
configured and the job aborts otherwise; against a backend that fails twice
and then succeeds, with retries enabled, the item ends in a successful fetch
after 3 attempts and, in the orchestration loop, the error-sink contents are
left unchanged and processing continues with the next item. -/
theorem spec_C4_attempt_counts (fetch fetch2 : ℕ → Option ℕ) (sink : Bool) (len : ℕ)
    (hfail : ∀ k, fetch k = none)
    (h0 : fetch2 0 = none) (h1 : fetch2 1 = none) (h2 : fetch2 2 = some len) :
    (attemptLoop fetch sink (attemptBudget false) 0).made = 1 ∧
    (attemptLoop fetch sink (attemptBudget true) 0).made = 3 ∧
    attemptLoop fetch sink (attemptBudget false) 0 =
      (if sink then .failedLogged 1 else .aborted 1) ∧
    attemptLoop fetch sink (attemptBudget true) 0 =
      (if sink then .failedLogged 3 else .aborted 3) ∧
    attemptLoop fetch2 sink (attemptBudget true) 0 = .fetched len 3 ∧
    (∀ (opts : SeedOpts) (fetchF : Coordinate → ℕ → Option ℕ) (o : ℕ) (c : ℤ)
        (coord : Coordinate) (rest : List SeedItem) (s : SeedState),
      opts.enableRetries = true → fetchF coord = fetch2 →
      runItems opts fetchF ((o, c, coord) :: rest) s =
        runItems opts fetchF rest
          { processed := s.processed + 1,
            errorLines := s.errorLines,
            lastProgress :=
              if opts.progressFile then
                some ⟨tilePath opts.layer coord opts.extension, o + 1, c, some (sizeStr len)⟩
              else s.lastProgress }) := by
  have hA1 := attemptLoop_all_fail fetch sink hfail 1 0 (by omega)
  have hA3 := attemptLoop_all_fail fetch sink hfail 3 0 (by omega)
  have hS : ∀ sk : Bool, attemptLoop fetch2 sk 3 0 = .fetched len 3 := by
    intro sk
    calc attemptLoop fetch2 sk 3 0
        = attemptLoop fetch2 sk 2 1 := attemptLoop_succ_fail fetch2 sk 2 0 h0 (by omega)
      _ = attemptLoop fetch2 sk 1 2 := attemptLoop_succ_fail fetch2 sk 1 1 h1 (by omega)
      _ = .fetched len 3 := attemptLoop_succ_ok fetch2 sk 0 2 len h2
  refine ⟨?_, ?_, ?_, ?_, hS sink, ?_⟩
  · show (attemptLoop fetch sink 1 0).made = 1
    rw [hA1]
    cases sink <;> rfl
  · show (attemptLoop fetch sink 3 0).made = 3
    rw [hA3]
    cases sink <;> rfl
  · show attemptLoop fetch sink 1 0 = _
    rw [hA1]
  · show attemptLoop fetch sink 3 0 = _
    rw [hA3]
  · intro opts fetchF o c coord rest s hret hfe
    refine runItems_cons_fetched opts fetchF o c coord rest s len 3 ?_
    rw [hfe, hret]
    exact hS opts.errorList

/-- Witness for C4: always-failing fetch and a fails-twice-then-succeeds
fetch, with an error sink configured. -/
theorem spec_C4_attempt_counts_witness :
    (attemptLoop (fun _ => none) true (attemptBudget false) 0).made = 1 ∧
    (attemptLoop (fun _ => none) true (attemptBudget true) 0).made = 3 ∧
    attemptLoop (fun k => if k < 2 then none else some 7) true (attemptBudget true) 0 =
      .fetched 7 3 := by
  have h := spec_C4_attempt_counts (fun _ => none) (fun k => if k < 2 then none else some 7)
    true 7 (fun _ => rfl) rfl rfl rfl
  exact ⟨h.1, h.2.1, h.2.2.2.2.1⟩

/-- C5: when an item exhausts its attempt budget against an always-failing
backend: with an error sink configured, exactly one newline-terminated
`zoom/column/row` line for the failing coordinate is appended to it and the
loop continues with the remaining items; with no error sink, the failure
propagates and the loop aborts, with the remaining items never processed. -/
theorem spec_C5_error_sink_routing (opts : SeedOpts) (fetch : Coordinate → ℕ → Option ℕ)
    (o : ℕ) (c : ℤ) (coord : Coordinate) (rest : List SeedItem) (s : SeedState)
    (hfail : ∀ k, fetch coord k = none) :
    errLine coord =
      toString coord.zoom ++ "/" ++ toString coord.column ++ "/" ++
        toString coord.row ++ "\n" ∧
    (opts.errorList = true →
      runItems opts fetch ((o, c, coord) :: rest) s =
        runItems opts fetch rest
          { processed := s.processed + 1,
            errorLines := s.errorLines ++ [errLine coord],
            lastProgress :=
              if opts.progressFile then
                some ⟨tilePath opts.layer coord opts.extension, o + 1, c, none⟩
              else s.lastProgress }) ∧
    (opts.errorList = false →
      runItems opts fetch ((o, c, coord) :: rest) s =
        .aborted { s with processed := s.processed + 1 }) := by
  have hbudget : 1 ≤ attemptBudget opts.enableRetries := by
    unfold attemptBudget
    cases opts.enableRetries <;> simp
  have hA := attemptLoop_all_fail (fetch coord) opts.errorList hfail
    (attemptBudget opts.enableRetries) 0 hbudget
  refine ⟨rfl, fun hsink => ?_, fun hsink => ?_⟩
  · refine runItems_cons_failedLogged opts fetch o c coord rest s
      (0 + attemptBudget opts.enableRetries) ?_
    rw [hA, hsink]
    simp
  · refine runItems_cons_aborted opts fetch o c coord rest s
      (0 + attemptBudget opts.enableRetries) ?_
    rw [hA, hsink]
    simp

/-- Witness for C5: one exhausted item with a sink (line appended, loop goes
on) and without one (abort). -/
theorem spec_C5_error_sink_routing_witness :
    runItems ⟨false, true, false, "osm", "png"⟩ (fun _ _ => none)
        [(0, 5, ⟨1200, 600, 12⟩)] ⟨0, [], none⟩ =
      runItems ⟨false, true, false, "osm", "png"⟩ (fun _ _ => none) []
        ⟨1, ["12/600/1200" ++ "\n"], none⟩ ∧
    runItems ⟨false, false, false, "osm", "png"⟩ (fun _ _ => none)
        [(0, 5, ⟨1200, 600, 12⟩)] ⟨0, [], none⟩ =
      .aborted ⟨1, [], none⟩ := by
  have h1 := spec_C5_error_sink_routing ⟨false, true, false, "osm", "png"⟩ (fun _ _ => none)
    0 5 ⟨1200, 600, 12⟩ [] ⟨0, [], none⟩ (fun _ => rfl)
  have h2 := spec_C5_error_sink_routing ⟨false, false, false, "osm", "png"⟩ (fun _ _ => none)
    0 5 ⟨1200, 600, 12⟩ [] ⟨0, [], none⟩ (fun _ => rfl)
  exact ⟨(h1.2.1 rfl).trans (by decide), h2.2.2 rfl⟩

/-- C9: after an item reaches a terminal outcome, when a progress file is
configured, the snapshot written is a single record replacing the previous
one, with `tile` equal to `<layer>/<zoom>/<column>/<row>.<extension>`,
`offset` equal to the item's zero-based offset plus 1, `total` equal to the
stream total as carried in the item, and a `size` field equal to the content
length floor-divided by 1024 followed by `KB` present exactly when the fetch
succeeded (and absent after an exhausted-but-logged failure). -/
theorem spec_C9_progress_snapshot (opts : SeedOpts) (fetch : Coordinate → ℕ → Option ℕ)
    (o : ℕ) (c : ℤ) (coord : Coordinate) (rest : List SeedItem) (s : SeedState)
    (len m m2 : ℕ) (hp : opts.progressFile = true) :
    (attemptLoop (fetch coord) opts.errorList (attemptBudget opts.enableRetries) 0 =
        .fetched len m →
      runItems opts fetch ((o, c, coord) :: rest) s =
        runItems opts fetch rest
          ⟨s.processed + 1, s.errorLines,
            some ⟨opts.layer ++ "/" ++ toString coord.zoom ++ "/" ++ toString coord.column ++
                "/" ++ toString coord.row ++ "." ++ opts.extension,
              o + 1, c, some (toString (len / 1024) ++ "KB")⟩⟩) ∧
    (attemptLoop (fetch coord) opts.errorList (attemptBudget opts.enableRetries) 0 =
        .failedLogged m2 →
      runItems opts fetch ((o, c, coord) :: rest) s =
        runItems opts fetch rest
          ⟨s.processed + 1, s.errorLines ++ [errLine coord],
            some ⟨opts.layer ++ "/" ++ toString coord.zoom ++ "/" ++ toString coord.column ++
                "/" ++ toString coord.row ++ "." ++ opts.extension,
              o + 1, c, none⟩⟩) := by
  constructor
  · intro h
    rw [runItems_cons_fetched opts fetch o c coord rest s len m h, hp]
    rfl
  · intro h
    rw [runItems_cons_failedLogged opts fetch o c coord rest s m2 h, hp]
    rfl

/-- Witness for C9: a succeeding item (snapshot with `size`) and an
exhausted-but-logged item (snapshot without `size`). -/
theorem spec_C9_progress_snapshot_witness :
    runItems ⟨false, false, true, "osm", "png"⟩ (fun _ _ => some 2048)
        [(2, 5, ⟨1200, 600, 12⟩)] ⟨2, [], none⟩ =
      runItems ⟨false, false, true, "osm", "png"⟩ (fun _ _ => some 2048) []
        ⟨3, [], some ⟨"osm/12/600/1200.png", 3, 5, some "2KB"⟩⟩ ∧
    runItems ⟨false, true, true, "osm", "png"⟩ (fun _ _ => none)
        [(2, 5, ⟨1200, 600, 12⟩)] ⟨2, [], none⟩ =
      runItems ⟨false, true, true, "osm", "png"⟩ (fun _ _ => none) []
        ⟨3, ["12/600/1200" ++ "\n"], some ⟨"osm/12/600/1200.png", 3, 5, none⟩⟩ := by
  have hs := spec_C9_progress_snapshot ⟨false, false, true, "osm", "png"⟩
    (fun _ _ => some 2048) 2 5 ⟨1200, 600, 12⟩ [] ⟨2, [], none⟩ 2048 1 1 rfl
  have hf := spec_C9_progress_snapshot ⟨false, true, true, "osm", "png"⟩
    (fun _ _ => none) 2 5 ⟨1200, 600, 12⟩ [] ⟨2, [], none⟩ 0 1 1 rfl
  exact ⟨(hs.1 (by decide)).trans (by decide), (hf.2 (by decide)).trans (by decide)⟩

/-- C6: a parsed tile-list file yields a stream with `total` equal to the
number of lines, in file order, and each produced item at position `i` is
`(i, total, Coordinate(row, column, zoom))` where `zoom/column/row` are the
three fields of line `i`. -/
theorem spec_C6_tile_list_roundtrip (lines : List String) (items : List SeedItem)
    (h : listCoordinates lines = some items) :
    items.length = lines.length ∧
    ∀ (i : ℕ) (hi : i < items.length) (hl : i < lines.length) (z c r : ℤ),
      parseTriple (lines.get ⟨i, hl⟩) = some (z, c, r) →
      items.get ⟨i, hi⟩ = (i, (lines.length : ℤ), ⟨r, c, z⟩) := by
  unfold listCoordinates at h
  obtain ⟨cs, hm, hitems⟩ := Option.map_eq_some'.mp h
  obtain ⟨hlen, hidx⟩ := mapM_option_spec parseLine lines cs hm
  subst hitems
  constructor
  · simp [hlen]
  · intro i hi hl z c r hparse
    have hic : i < cs.length := by simpa using hi
    have hpl : parseLine (lines.get ⟨i, hl⟩) = some ⟨r, c, z⟩ := by
      unfold parseLine
      rw [hparse]
      rfl
    have hcs : cs.get ⟨i, hic⟩ = ⟨r, c, z⟩ := by
      have hx := hidx i hl hic
      rw [hpl] at hx
      exact (Option.some.inj hx).symm
    rw [List.get_eq_getElem, List.getElem_map, List.getElem_enum]
    rw [List.get_eq_getElem] at hcs
    simp [hcs, hlen]

/-- Witness for C6 at the spec's concrete two-line tile list. -/
theorem spec_C6_tile_list_roundtrip_witness :
    ([(0, (2 : ℤ), (⟨1200, 600, 12⟩ : Coordinate)),
        (1, 2, ⟨1200, 601, 12⟩)] : List SeedItem).length =
      (["12/600/1200", "12/601/1200"] : List String).length ∧
    ([(0, (2 : ℤ), (⟨1200, 600, 12⟩ : Coordinate)),
        (1, 2, ⟨1200, 601, 12⟩)] : List SeedItem).get ⟨1, by decide⟩ =
      (1, 2, ⟨1200, 601, 12⟩) := by
  have h := spec_C6_tile_list_roundtrip ["12/600/1200", "12/601/1200"]
    [(0, 2, ⟨1200, 600, 12⟩), (1, 2, ⟨1200, 601, 12⟩)] (by decide)
  refine ⟨h.1, ?_⟩
  have hx := h.2 1 (by decide) (by decide) 12 601 1200 (by decide)
  exact hx
